/-
Verification development for the pywin32-mcp document-automation servers.

The repository exposes Excel and PowerPoint manipulation as MCP tool calls,
with two strategies per application: a live-COM strategy
(mcp_excel_server_win32.py, mcp_powerpoint_server_win32.py) and a
document-library strategy (mcp_powerpoint_server.py, via python-pptx).

This file gives a shallow embedding of the identifier resolvers, the
connection guard, the performance-mode context manager, the used-range and
label/value analyzers, the tool-error flattening layer, the presentation
cache and element-id registry, and the slide-deletion operation, and proves
the specified properties about them.  Python machine behaviour is modelled
as follows: Python ints are `Int`, Python strings are `String`, `None` is
`Option.none`, raised exceptions are the `Except` error branch, and COM
collection state is an explicit Lean structure passed functionally.
-/
import Mathlib

/-- A Python argument that may be an `int` or a `str`, as accepted by the
identifier-resolution methods (`Union[str, int]` in the source). -/
inductive PyIdent where
  | int (i : Int)
  | str (s : String)
deriving DecidableEq, Repr

/-- Python `str.isdigit()` restricted to ASCII digit strings: true exactly on
nonempty all-digit strings (the unicode-digit corner of `isdigit` is not used
by this repository). -/
def pyIsDigit (s : String) : Bool := !s.isEmpty && s.all Char.isDigit

/-- Python `int(s)` on a digit string (callers guard with `pyIsDigit`). -/
def pyStrToInt (s : String) : Int := ((s.toNat?).getD 0 : Nat)

/-- Python substring test `needle in hay`, expressed through `String.splitOn`:
a nonempty needle occurs in `hay` iff splitting on it produces more than one
piece. -/
def pyInStr (needle hay : String) : Bool := (hay.splitOn needle).length != 1

/-- Python exception values, carrying their message. `com_error` is the
pywintypes COM failure; `nameError` models Python resolving an unbound
global name. -/
inductive PyExc where
  | connectionError (msg : String)
  | valueError (msg : String)
  | comError (msg : String)
  | typeError (msg : String)
  | nameError (msg : String)
  | other (msg : String)
deriving DecidableEq, Repr

/-- Python `str(error)`: the exception message. -/
def PyExc.pyStr : PyExc → String
  | .connectionError m | .valueError m | .comError m | .typeError m
  | .nameError m | .other m => m

/-- Association-list lookup with decidable key equality; models Python `dict`
indexing (`d[k]` / `k in d`) and the `x in collection` membership checks. -/
def assocFind {κ ν : Type} [DecidableEq κ] : List (κ × ν) → κ → Option ν
  | [], _ => none
  | (k0, v0) :: rest, k => if k0 = k then some v0 else assocFind rest k

/-- A cell value as returned by `Range.Value` over COM: empty cell, a text
value, or a numeric value.  Numeric cell contents are modelled as `Int`
(the source only tests `isinstance(v, (int, float))` and `v != 0`, which any
numeric carrier with decidable zero-test represents faithfully). -/
inductive CellValue where
  | empty
  | str (s : String)
  | num (n : Int)
deriving DecidableEq, Repr

/-- The `UsedRange` of a worksheet: its top-left 1-based coordinates
(`Range.Row`, `Range.Column`), its A1-style address string, and the
rectangular grid of values returned by `UsedRange.Value`.  The COM
single-cell case (a bare scalar instead of a tuple of tuples) is the 1-by-1
grid. -/
structure UsedRange where
  row : Nat
  col : Nat
  address : String
  values : List (List CellValue)
deriving DecidableEq, Repr

/-- COM `Range.Rows.Count` of the used range: the grid height. -/
def UsedRange.rowsCount (u : UsedRange) : Nat := u.values.length

/-- COM `Range.Columns.Count` of the used range: the grid width. -/
def UsedRange.colsCount (u : UsedRange) : Nat := (u.values.headD []).length

/-- An Excel worksheet: its name and its used range (`none` models the
falsy `ws.UsedRange` branch of `find_used_ranges`/`extract_string_cells`). -/
structure Worksheet where
  name : String
  usedRange : Option UsedRange
deriving DecidableEq, Repr

/-- An open Excel workbook: `Name`, `FullName`, `Path` (empty for a
never-saved workbook, which is falsy in Python), and its worksheets in
1-based collection order. -/
structure Workbook where
  name : String
  fullName : String
  path : String
  sheets : List Worksheet
deriving DecidableEq, Repr

/-- The string-identifier match used by the loop in
`ExcelEditorWin32.get_workbook` (src/mcp_excel_server_win32.py lines
127-132): case-insensitive name match, or, when the workbook has a
nonempty `Path`, case-insensitive full-path match. -/
def Workbook.matchesIdent (wb : Workbook) (s : String) : Bool :=
  (wb.name.toLower == s.toLower)
    || (!(wb.path == "") && (wb.fullName.toLower == s.toLower))

/-- `ExcelEditorWin32.get_workbook` (src/mcp_excel_server_win32.py lines
103-140): an `int` identifier is a 1-based position into the open-workbook
collection (out of range gives `None`); a digit string is converted and
treated the same way; any other string is resolved by scanning the
collection in order for the first match of `Workbook.matchesIdent`. -/
def ExcelEditorWin32.get_workbook (wbs : List Workbook) : PyIdent → Option Workbook
  | .int i =>
      if 1 ≤ i ∧ i ≤ (wbs.length : Int) then wbs.get? (i - 1).toNat else none
  | .str s =>
      if pyIsDigit s then
        let i := pyStrToInt s
        if 1 ≤ i ∧ i ≤ (wbs.length : Int) then wbs.get? (i - 1).toNat else none
      else
        wbs.find? (fun wb => wb.matchesIdent s)

/-- `ExcelEditorWin32.get_worksheet` (src/mcp_excel_server_win32.py lines
211-251): resolve the workbook first (`None` propagates); an `int` sheet
identifier is a 1-based position with an explicit range check; a string is
the COM `Worksheets(name)` item lookup, modelled as the first sheet with
that name, where the COM not-found error is caught and flattened to
`None`. -/
def ExcelEditorWin32.get_worksheet (wbs : List Workbook)
    (identifier sheet_identifier : PyIdent) : Option Worksheet :=
  match ExcelEditorWin32.get_workbook wbs identifier with
  | none => none
  | some wb =>
      match sheet_identifier with
      | .int i =>
          if 1 ≤ i ∧ i ≤ (wb.sheets.length : Int) then
            wb.sheets.get? (i - 1).toNat
          else none
      | .str s => wb.sheets.find? (fun ws => ws.name == s)

/-- One entry of the list returned by `find_used_ranges`: the dictionary
built at src/mcp_excel_server_win32.py lines 443-451. -/
structure RangeInfo where
  range : String
  rows : Int
  cols : Int
  first_row : Int
  last_row : Int
  first_col : Int
  last_col : Int
deriving DecidableEq, Repr

/-- `ExcelEditorWin32.find_used_ranges` (src/mcp_excel_server_win32.py lines
425-457), acting on the already-resolved worksheet (workbook/worksheet
resolution is `get_worksheet` above): a falsy used range gives `[]`,
otherwise a single bounding entry is returned; the TODO at line 453 notes
that separate contiguous blocks are not split. -/
def ExcelEditorWin32.find_used_ranges (ws : Worksheet) : List RangeInfo :=
  match ws.usedRange with
  | none => []
  | some u =>
      [{ range := u.address
         rows := u.rowsCount
         cols := u.colsCount
         first_row := u.row
         last_row := (u.row : Int) + u.rowsCount - 1
         first_col := u.col
         last_col := (u.col : Int) + u.colsCount - 1 }]

/-- A text cell recorded by `extract_string_cells`: its stripped value and
its absolute 1-based sheet coordinates (the A1 address string and the sheet
name recorded alongside in the source are determined by these and are not
re-modelled). -/
structure StringCell where
  value : String
  row : Nat
  col : Nat
deriving DecidableEq, Repr

/-- `ExcelEditorWin32.extract_string_cells` (src/mcp_excel_server_win32.py
lines 459-521) on the resolved worksheet: walk the used-range grid row by
row and record every string cell whose stripped value is nonempty, at
absolute coordinates offset by the used-range origin.  The single-cell and
flat-row branches of the source are the 1-by-1 and 1-by-n grids here. -/
def ExcelEditorWin32.extract_string_cells (ws : Worksheet) : List StringCell :=
  match ws.usedRange with
  | none => []
  | some u =>
      u.values.enum.flatMap fun ri_row =>
        ri_row.2.enum.filterMap fun ci_cell =>
          match ci_cell.2 with
          | .str s =>
              if s.trim ≠ "" then
                some { value := s.trim, row := u.row + ri_row.1, col := u.col + ci_cell.1 }
              else none
          | _ => none

/-- COM `ws.Cells(r, c).Value`: a cell inside the used range holds the
corresponding grid entry, every other cell of the sheet is empty. -/
def Worksheet.cellAt (ws : Worksheet) (r c : Nat) : CellValue :=
  match ws.usedRange with
  | none => .empty
  | some u =>
      if u.row ≤ r ∧ u.col ≤ c then
        (((u.values.get? (r - u.row)).getD []).get? (c - u.col)).getD .empty
      else .empty

/-- The Python test `isinstance(v, (int, float)) and v != 0` applied to a
cell value. -/
def CellValue.isNonzeroNumber : CellValue → Bool
  | .num n => n != 0
  | _ => false

/-- Python `range(a, b)`: the ascending list of naturals from `a` up to but
excluding `b`. -/
def pyRange (a b : Nat) : List Nat := List.range' a (b - a)

/-- The exclusive upper bound `ws.UsedRange.Rows.Count + ws.UsedRange.Row`
of the table-header scan at src/mcp_excel_server_win32.py line 626 (one past
the last used row). -/
def Worksheet.usedEndRow (ws : Worksheet) : Nat :=
  match ws.usedRange with
  | none => 0
  | some u => u.rowsCount + u.row

/-- The `numbers_below` loop of `analyze_label_value_patterns`
(src/mcp_excel_server_win32.py lines 625-637): the rows strictly below the
text cell, within `range(row + 1, min(row + 20, usedEndRow))`, whose cell in
the same column holds a nonzero number, paired with that number. -/
def ExcelEditorWin32.numbers_below (ws : Worksheet) (sc : StringCell) : List (Nat × Int) :=
  (pyRange (sc.row + 1) (min (sc.row + 20) ws.usedEndRow)).filterMap fun r =>
    match ws.cellAt r sc.col with
    | .num n => if n ≠ 0 then some (r, n) else none
    | _ => none

/-- One horizontal label/value pair reported by
`analyze_label_value_patterns`. -/
structure HorizontalPair where
  label : String
  row : Nat
  col : Nat
  value : Int
deriving DecidableEq, Repr

/-- One table-header entry reported by `analyze_label_value_patterns`. -/
structure TableHeader where
  header : String
  row : Nat
  col : Nat
  data_count : Nat
deriving DecidableEq, Repr

/-- The pattern dictionary built by `analyze_label_value_patterns`
(`vertical_lists` is always left empty by the source and is omitted). -/
structure LabelValuePatterns where
  horizontal_pairs : List HorizontalPair
  table_headers : List TableHeader
  total_string_cells : Nat
deriving DecidableEq, Repr

/-- `ExcelEditorWin32.analyze_label_value_patterns`
(src/mcp_excel_server_win32.py lines 578-650) on the resolved worksheet.
A horizontal pair is appended for each extracted string cell whose right
neighbour `ws.Cells(row, col + 1)` holds a nonzero number; a table header is
appended for each extracted string cell with at least 2 nonzero numbers
below it in the scan window.  The per-iteration conditional appends of the
source loops are the `filterMap`s here. -/
def ExcelEditorWin32.analyze_label_value_patterns (ws : Worksheet) : LabelValuePatterns :=
  let string_cells := ExcelEditorWin32.extract_string_cells ws
  { horizontal_pairs :=
      string_cells.filterMap fun sc =>
        match ws.cellAt sc.row (sc.col + 1) with
        | .num n =>
            if n ≠ 0 then
              some { label := sc.value, row := sc.row, col := sc.col, value := n }
            else none
        | _ => none
    table_headers :=
      string_cells.filterMap fun sc =>
        let nb := ExcelEditorWin32.numbers_below ws sc
        if 2 ≤ nb.length then
          some { header := sc.value, row := sc.row, col := sc.col, data_count := nb.length }
        else none
    total_string_cells := string_cells.length }

/-- The mutable Excel application settings touched by `_performance_mode`,
together with the rest of the application state (workbooks, etc.) abstracted
as `σ`. -/
structure ExcelAppState (σ : Type) where
  screenUpdating : Bool
  displayAlerts : Bool
  data : σ
deriving DecidableEq, Repr

/-- `ExcelEditorWin32._performance_mode` (src/mcp_excel_server_win32.py
lines 45-64): store the original `ScreenUpdating`/`DisplayAlerts`, run the
body with both set to `False`, and restore the originals in a `finally`
block, so restoration happens whether the body returns normally or raises
(the raised exception is re-thrown afterwards, i.e. the body result is
passed through unchanged).  The body is any state transformer returning a
normal result or an exception; the call sites are `save_workbook`,
`add_worksheet`, `set_range_values` and `analyze_label_value_patterns`. -/
def ExcelEditorWin32.performance_mode {σ β : Type}
    (body : ExcelAppState σ → Except PyExc β × ExcelAppState σ)
    (a : ExcelAppState σ) : Except PyExc β × ExcelAppState σ :=
  let original_screen_updating := a.screenUpdating
  let original_display_alerts := a.displayAlerts
  let r := body { a with screenUpdating := false, displayAlerts := false }
  (r.1, { r.2 with
            screenUpdating := original_screen_updating
            displayAlerts := original_display_alerts })

/-- `_handle_excel_tool_error` (src/mcp_excel_server_win32.py lines
664-676): flatten any exception raised by an Excel tool into a plain
dictionary with a single `error` string (the four branches choose the
message). -/
def handle_excel_tool_error (tool_name : String) (error : PyExc) :
    List (String × String) :=
  let err_msg := "Error in tool " ++ tool_name ++ ": " ++ error.pyStr
  if (match error with | .connectionError _ => true | _ => false)
      || pyInStr "RPC server is unavailable" error.pyStr then
    [("error", "Could not connect to Excel. Please ensure it is running.")]
  else if (match error with | .valueError _ => true | _ => false) then
    [("error", error.pyStr)]
  else if (match error with | .comError _ => true | _ => false) then
    [("error", "Excel Communication Error in " ++ tool_name ++ ": " ++ error.pyStr)]
  else
    [("error", err_msg)]

/-- An open PowerPoint slide in the live-COM model: its `Name` and its
shape count are the only properties the verified resolvers touch. -/
structure SlideW where
  name : String
deriving DecidableEq, Repr

/-- An open PowerPoint presentation in the live-COM model: `Name`,
`FullName`, `Path`, and the slides in 1-based collection order. -/
structure PresW where
  name : String
  fullName : String
  path : String
  slides : List SlideW
deriving DecidableEq, Repr

/-- The string-identifier match of the loop in
`PowerPointEditorWin32.get_presentation`
(src/mcp_powerpoint_server_win32.py lines 140-143): case-sensitive equality
with the `Name` or the `FullName`. -/
def PresW.matchesIdent (p : PresW) (s : String) : Bool :=
  (p.name == s) || (p.fullName == s)

/-- `PowerPointEditorWin32.get_presentation`
(src/mcp_powerpoint_server_win32.py lines 120-148): an `int` identifier or a
digit string is a 1-based position into the open-presentation collection
(out of range gives `None`); any other string is resolved by scanning the
collection in order for the first `Name`/`FullName` match. -/
def PowerPointEditorWin32.get_presentation (press : List PresW) :
    PyIdent → Option PresW
  | .int i =>
      if 1 ≤ i ∧ i ≤ (press.length : Int) then press.get? (i - 1).toNat else none
  | .str s =>
      if pyIsDigit s then
        let i := pyStrToInt s
        if 1 ≤ i ∧ i ≤ (press.length : Int) then press.get? (i - 1).toNat
        else none
      else
        press.find? (fun p => p.matchesIdent s)

/-- `PowerPointEditorWin32.get_slide` (src/mcp_powerpoint_server_win32.py
lines 211-235): resolve the presentation (`None` propagates as `.ok none`);
an integer `slide_index` in `[1, Slides.Count]` yields that slide, out of
range yields `None`.  The parameter is annotated `int` in the source, but
Python does not enforce the annotation: a string argument makes the
comparison `1 <= slide_index` raise `TypeError`, which the `except` block of
the method prints and re-raises, so a name-typed slide identifier escapes as
an exception instead of resolving. -/
def PowerPointEditorWin32.get_slide (press : List PresW)
    (identifier slide_index : PyIdent) : Except PyExc (Option SlideW) :=
  match PowerPointEditorWin32.get_presentation press identifier with
  | none => .ok none
  | some pres =>
      match slide_index with
      | .int i =>
          if 1 ≤ i ∧ i ≤ (pres.slides.length : Int) then
            .ok (pres.slides.get? (i - 1).toNat)
          else .ok none
      | .str _ =>
          .error (.typeError "not supported between instances of int and str")

/-- A live COM application handle; `responsive` records whether reading
`app.Version` succeeds (the probe both `_ensure_connection` guards use). -/
structure AppHandle where
  responsive : Bool
deriving DecidableEq, Repr

/-- The connection state of a live-COM editor: the cached handle (if any)
and the scripted outcomes of successive `_connect_or_launch_*` attempts
against the environment (each attempt consumes the next outcome; an
exhausted script means the attempt leaves no handle). -/
structure ConnState where
  app : Option AppHandle
  launches : List (Option AppHandle)
deriving DecidableEq, Repr

/-- `_connect_or_launch_excel` / `_connect_or_launch_powerpoint`: set
`self.app` to whatever handle the environment provides next (possibly
`None`). -/
def connect_or_launch (s : ConnState) : ConnState :=
  match s.launches with
  | [] => { s with app := none }
  | o :: rest => { app := o, launches := rest }

/-- `_ensure_connection` (src/mcp_excel_server_win32.py lines 66-78 and
src/mcp_powerpoint_server_win32.py lines 82-95; the two differ only in the
application name in their messages).  Returned alongside the guard result
and the final state is the number of `_connect_or_launch_*` calls the guard
made: if the cached handle is absent, reconnect once and raise
`ConnectionError` if that leaves no handle; then probe `app.Version`, and on
failure reconnect once more, raising `ConnectionError` only if that second
reconnect leaves no handle (a second fresh-but-unresponsive handle is
accepted without a further probe). -/
def ensure_connection (appName : String) (s : ConnState) :
    Except PyExc AppHandle × ConnState × Nat :=
  let first : ConnState × Nat :=
    if s.app = none then (connect_or_launch s, 1) else (s, 0)
  match first.1.app with
  | none =>
      (.error (.connectionError ("Could not connect to or launch " ++ appName ++ ".")),
       first.1, first.2)
  | some a =>
      if a.responsive then (.ok a, first.1, first.2)
      else
        let s2 := connect_or_launch first.1
        match s2.app with
        | none =>
            (.error (.connectionError ("Could not reconnect to " ++ appName ++ ".")),
             s2, first.2 + 1)
        | some a2 => (.ok a2, s2, first.2 + 1)

/-- The module-level names bound in src/mcp_powerpoint_server_win32.py:
imports (lines 1-6), the VBA constants (lines 12-26), the two name maps
(lines 30-55), the editor class (line 58), the `editor` and `mcp` globals
(lines 629-632), and the tool functions (lines 634-741).  Notably,
`_handle_tool_error` — called by the `except` blocks of the last three
tools — is not among them. -/
def pptWin32ModuleNames : List String :=
  ["win32com", "pythoncom", "List", "Optional", "Dict", "Any", "Union",
   "FastMCP", "os", "pywintypes",
   "ppSaveAsOpenXMLPresentation", "msoShapeRectangle",
   "msoTextOrientationHorizontal", "msoPlaceholder",
   "ppPlaceholderTitle", "ppPlaceholderBody", "ppPlaceholderCenterTitle",
   "ppPlaceholderSubtitle", "ppPlaceholderDate", "ppPlaceholderSlideNumber",
   "ppPlaceholderFooter", "ppPlaceholderHeader", "ppPlaceholderObject",
   "PLACEHOLDER_NAME_MAP", "SHAPE_TYPE_NAME_MAP",
   "PowerPointEditorWin32", "editor", "mcp",
   "list_open_presentations", "save_presentation", "add_slide",
   "add_text_box", "add_rectangle", "edit_element", "list_shapes",
   "find_shape_by_text", "find_shapes_by_type", "get_placeholder_shape"]

/-- Python global-name resolution: an unbound name raises `NameError`. -/
def pyGlobalLookup (names : List String) (n : String) : Except PyExc Unit :=
  if names.contains n then .ok ()
  else .error (.nameError ("name " ++ n ++ " is not defined"))

/-- The observable outcome of one MCP tool call: a normal success payload,
a flattened error payload, or an exception escaping the tool uncaught. -/
inductive ToolReply (α : Type) where
  | ok (result : α)
  | errorPayload (fields : List (String × String))
  | escaped (e : PyExc)
deriving DecidableEq, Repr

/-- The `find_shape_by_text` tool wrapper of the PowerPoint Win32 server
(src/mcp_powerpoint_server_win32.py lines 704-712), parameterised by the
outcome of the underlying `editor.find_shape_by_text` call: a normal result
is returned as the `matches` payload, and when the editor raises, the
`except` block evaluates the global name `_handle_tool_error`, whose lookup
in the module namespace decides whether an error payload is produced or a
`NameError` escapes.  The `find_shapes_by_type` and `get_placeholder_shape`
wrappers have the same `except` block. -/
def find_shape_by_text_tool {α : Type} (editorCall : Except PyExc α) :
    ToolReply α :=
  match editorCall with
  | .ok ms => .ok ms
  | .error _ =>
      match pyGlobalLookup pptWin32ModuleNames "_handle_tool_error" with
      | .ok _ => .errorPayload [("error", "flattened by the module handler")]
      | .error ne => .escaped ne

/-- A python-pptx shape: the only attribute the element registry reads is
`shape_id` (`getattr(shape, "shape_id", id(shape))`; every pptx shape has
`shape_id`, so the `id(shape)` fallback is dead for this library). -/
structure PShape where
  shape_id : Nat
deriving DecidableEq, Repr

/-- A python-pptx slide: its shapes in document order. -/
structure PSlide where
  shapes : List PShape
deriving DecidableEq, Repr

/-- A loaded python-pptx presentation document tree: its slide list (the
`_sldIdLst` XML child list, each child carrying its slide's content). -/
structure PresDoc where
  slides : List PSlide
deriving DecidableEq, Repr

/-- Python `pathlib.Path.is_absolute`, in the POSIX form (a leading slash).
The default workspace directory `"presentations"` is a relative path on
every platform, which is all the cache-key analysis needs. -/
def pyIsAbsolute (p : String) : Bool :=
  match p.data with
  | [] => false
  | c :: _ => c == Char.ofNat 47

/-- The path normalisation at the top of `PowerPointContext.get_presentation`
and `save_presentation` (src/mcp_powerpoint_server.py lines 51-58 and
76-80): an absolute identifier is kept, a relative one is joined to the
workspace directory. -/
def resolveWorkspacePath (workspace_dir p : String) : String :=
  if pyIsAbsolute p then p else workspace_dir ++ "/" ++ p

/-- The `PowerPointContext` state (src/mcp_powerpoint_server.py lines
26-42): the workspace directory, the open-presentation cache (a plain dict
keyed by the normalised path string), the current presentation key, the
element-id registry (the nested dicts presentation path → slide index →
shape id → id, flattened here to one map keyed by the triple, which has the
same lookup behaviour), and a freshness counter modelling `uuid.uuid4()`
(each generated element id is fresh; ids are the counter values). -/
structure PPContext where
  workspace_dir : String
  presentations : List (String × PresDoc)
  current_presentation : Option String
  element_ids : List ((String × Int × Nat) × Nat)
  next_element_id : Nat
deriving DecidableEq, Repr

/-- `PowerPointContext.get_presentation` (src/mcp_powerpoint_server.py lines
44-67) against a disk modelled as a map from path strings to stored
documents: normalise the path, return the cached document if the key is
present, otherwise load the file at the key (or create a blank document when
no file exists) and cache it; either way the key becomes the current
presentation. -/
def PPContext.get_presentation (c : PPContext) (disk : List (String × PresDoc))
    (path : String) : PresDoc × PPContext :=
  let path_str := resolveWorkspacePath c.workspace_dir path
  match assocFind c.presentations path_str with
  | some pres => (pres, { c with current_presentation := some path_str })
  | none =>
      let pres :=
        match assocFind disk path_str with
        | some filePres => filePres
        | none => { slides := [] }
      (pres, { c with
                 presentations := (path_str, pres) :: c.presentations
                 current_presentation := some path_str })

/-- `PowerPointContext.save_presentation` (src/mcp_powerpoint_server.py
lines 69-85): pick the explicit normalised path or the current key, and if
that key is cached, write the cached document to disk at that key (returned
as the performed write); the context itself is never modified and nothing is
evicted. -/
def PPContext.save_presentation (c : PPContext) (path : Option String) :
    PPContext × Option (String × PresDoc) :=
  let save_path :=
    match path with
    | some p => some (resolveWorkspacePath c.workspace_dir p)
    | none => c.current_presentation
  match save_path with
  | some sp =>
      match assocFind c.presentations sp with
      | some pres => (c, some (sp, pres))
      | none => (c, none)
  | none => (c, none)

/-- `PowerPointContext.register_element` (src/mcp_powerpoint_server.py lines
121-136): if the (path, slide index, shape id) triple is already registered,
return its element id unchanged; otherwise draw a fresh id, store it under
the triple, and return it. -/
def PPContext.register_element (c : PPContext) (presentation_path : String)
    (slide_index : Int) (shape_id : Nat) : Nat × PPContext :=
  match assocFind c.element_ids (presentation_path, slide_index, shape_id) with
  | some eid => (eid, c)
  | none =>
      let eid := c.next_element_id
      (eid, { c with
                element_ids :=
                  ((presentation_path, slide_index, shape_id), eid) :: c.element_ids
                next_element_id := c.next_element_id + 1 })

/-- Python sequence indexing `l[i]` with an `int` index: non-negative
indices are positional, negative indices count from the end, and anything
out of range is an `IndexError` (here `none`). -/
def pyListGet {α : Type} (l : List α) (i : Int) : Option α :=
  if 0 ≤ i then l.get? i.toNat
  else if 0 ≤ (l.length : Int) + i then l.get? ((l.length : Int) + i).toNat
  else none

/-- `PowerPointContext.get_shape_by_id` (src/mcp_powerpoint_server.py lines
138-169): reject a slide index at or past the slide count, fetch the slide
(an out-of-range access raising inside the `try` is caught to `None`),
require a current presentation, and return the first shape of the slide
whose registered element id under (current path, slide index, shape id)
equals the requested id; the explicit path/slide presence pre-checks of the
source are subsumed by that per-shape lookup returning nothing. -/
def PPContext.get_shape_by_id (c : PPContext) (pres : PresDoc)
    (slide_index : Int) (element_id : Nat) : Option PShape :=
  if (pres.slides.length : Int) ≤ slide_index then none
  else
    match pyListGet pres.slides slide_index with
    | none => none
    | some slide =>
        match c.current_presentation with
        | none => none
        | some presentation_path =>
            slide.shapes.find? fun sh =>
              assocFind c.element_ids (presentation_path, slide_index, sh.shape_id)
                == some element_id

/-- `PowerPointContext.delete_slide` (src/mcp_powerpoint_server.py lines
1195-1203) on the resolved document (the path resolution at line 1197 is
`PPContext.get_presentation`): snapshot `list(xml_slides)`, and when
`0 <= slide_index < len(slides)`, remove that very child element from the
XML list (lxml removal is by element identity, so exactly the child at that
position is removed) and return `True`; otherwise return `False` with the
document untouched. -/
def PPContext.delete_slide (pres : PresDoc) (slide_index : Int) :
    Bool × PresDoc :=
  if 0 ≤ slide_index ∧ slide_index < (pres.slides.length : Int) then
    (true, { slides := pres.slides.eraseIdx slide_index.toNat })
  else (false, pres)

/-- Well-formedness of the element-id registry, established by construction
from the empty registry: every stored id was drawn from the freshness
counter (so is below its current value), and no two entries share an id. -/
def PPContext.RegistryInv (c : PPContext) : Prop :=
  (∀ kv ∈ c.element_ids, kv.2 < c.next_element_id) ∧
  (c.element_ids.map Prod.snd).Nodup

/-
Helper lemmas about list search and removal, shared by the claim theorems
below.
-/

/-- A successful `find?` returns a satisfying element and everything before
it fails the predicate. -/
theorem find?_first {α : Type} (p : α → Bool) :
    ∀ (l : List α) (b : α), l.find? p = some b →
      p b = true ∧ ∃ pre post, l = pre ++ b :: post ∧ ∀ x ∈ pre, p x = false := by
  intro l
  induction l with
  | nil => intro b h; simp [List.find?] at h
  | cons a t ih =>
      intro b h
      by_cases hp : p a = true
      · rw [List.find?_cons_of_pos _ hp] at h
        cases h
        exact ⟨hp, [], t, rfl, by intro x hx; simp at hx⟩
      · rw [List.find?_cons_of_neg _ (by simpa using hp)] at h
        obtain ⟨hb, pre, post, rfl, hpre⟩ := ih b h
        refine ⟨hb, a :: pre, post, rfl, ?_⟩
        intro x hx
        rcases List.mem_cons.mp hx with rfl | hx2
        · simpa using hp
        · exact hpre x hx2

/-- `find?` returns the element when it is the unique satisfier. -/
theorem find?_unique {α : Type} (p : α → Bool) :
    ∀ (l : List α) (b : α), b ∈ l → p b = true →
      (∀ x ∈ l, p x = true → x = b) → l.find? p = some b := by
  intro l
  induction l with
  | nil => intro b hb; simp at hb
  | cons a t ih =>
      intro b hb hp huniq
      by_cases hpa : p a = true
      · have : a = b := huniq a (by simp) hpa
        subst this
        rw [List.find?_cons_of_pos _ hpa]
      · rw [List.find?_cons_of_neg _ (by simpa using hpa)]
        have hbt : b ∈ t := by
          rcases List.mem_cons.mp hb with rfl | hb2
          · exact absurd hp (by simpa using hpa)
          · exact hb2
        exact ih b hbt hp (fun x hx => huniq x (by simp [hx]))

/-- A successful `assocFind` exhibits a stored entry. -/
theorem assocFind_mem {κ ν : Type} [DecidableEq κ] :
    ∀ (l : List (κ × ν)) (k : κ) (v : ν), assocFind l k = some v → (k, v) ∈ l := by
  intro l
  induction l with
  | nil => intro k v h; simp [assocFind] at h
  | cons kv rest ih =>
      intro k v h
      obtain ⟨k0, v0⟩ := kv
      by_cases hk : k0 = k
      · subst hk
        simp [assocFind] at h
        simp [h]
      · rw [show assocFind ((k0, v0) :: rest) k = assocFind rest k by
              simp [assocFind, hk]] at h
        exact List.mem_cons_of_mem _ (ih k v h)

/-- When no two entries of an association list share a value, `assocFind`
is injective on the keys it resolves. -/
theorem assocFind_inj {κ ν : Type} [DecidableEq κ] :
    ∀ (l : List (κ × ν)), (l.map Prod.snd).Nodup →
      ∀ (k1 k2 : κ) (v : ν),
        assocFind l k1 = some v → assocFind l k2 = some v → k1 = k2 := by
  intro l
  induction l with
  | nil => intro _ k1 k2 v h; simp [assocFind] at h
  | cons kv rest ih =>
      intro hnd k1 k2 v h1 h2
      obtain ⟨k0, v0⟩ := kv
      rw [List.map_cons, List.nodup_cons] at hnd
      have hv0 : v0 ∉ rest.map Prod.snd := by simpa using hnd.1
      simp only [assocFind] at h1 h2
      by_cases e1 : k0 = k1 <;> by_cases e2 : k0 = k2
      · rw [← e1, ← e2]
      · rw [if_pos e1] at h1
        rw [if_neg e2] at h2
        injection h1 with hv
        subst hv
        exact absurd (List.mem_map_of_mem Prod.snd (assocFind_mem rest k2 v0 h2)) hv0
      · rw [if_neg e1] at h1
        rw [if_pos e2] at h2
        injection h2 with hv
        subst hv
        exact absurd (List.mem_map_of_mem Prod.snd (assocFind_mem rest k1 v0 h1)) hv0
      · rw [if_neg e1] at h1
        rw [if_neg e2] at h2
        exact ih hnd.2 k1 k2 v h1 h2

/-- Entries strictly before the erased position are unchanged. -/
theorem eraseIdx_get?_lt {α : Type} :
    ∀ (l : List α) (i j : Nat), j < i → (l.eraseIdx i).get? j = l.get? j := by
  intro l
  induction l with
  | nil => intro i j _; simp [List.eraseIdx]
  | cons a t ih =>
      intro i j hj
      cases i with
      | zero => omega
      | succ i =>
          cases j with
          | zero => simp [List.eraseIdx_cons_succ]
          | succ j =>
              simp only [List.eraseIdx_cons_succ, List.get?_cons_succ]
              exact ih i j (by omega)

/-- Entries at or after the erased position shift down by one. -/
theorem eraseIdx_get?_ge {α : Type} :
    ∀ (l : List α) (i j : Nat), i ≤ j → (l.eraseIdx i).get? j = l.get? (j + 1) := by
  intro l
  induction l with
  | nil => intro i j _; simp [List.eraseIdx]
  | cons a t ih =>
      intro i j hij
      cases i with
      | zero => simp [List.eraseIdx_cons_zero]
      | succ i =>
          cases j with
          | zero => omega
          | succ j =>
              simp only [List.eraseIdx_cons_succ, List.get?_cons_succ]
              exact ih i j (by omega)

/-- C5: for every worksheet with a non-empty used range, `find_used_ranges`
returns exactly one entry, whose `last_row`/`last_col` equal
`first_row + rows - 1` and `first_col + cols - 1`; disjoint contiguous
blocks are never split into separate entries (there is only the single
bounding entry); a worksheet with no used range yields the empty list. -/
theorem find_used_ranges_single_block :
    (∀ (nm : String) (u : UsedRange),
        (ExcelEditorWin32.find_used_ranges ⟨nm, some u⟩).length = 1 ∧
        (ExcelEditorWin32.find_used_ranges ⟨nm, some u⟩).all
          (fun m => m.last_row == m.first_row + m.rows - 1 &&
                    m.last_col == m.first_col + m.cols - 1) = true) ∧
    (∀ nm : String, ExcelEditorWin32.find_used_ranges ⟨nm, none⟩ = []) := by
  refine ⟨fun nm u => ⟨rfl, ?_⟩, fun nm => rfl⟩
  simp [ExcelEditorWin32.find_used_ranges]

/-- C8: any operation run inside the performance-mode context manager (its
call sites are `save_workbook`, `add_worksheet`, `set_range_values` and
`analyze_label_value_patterns`) leaves `ScreenUpdating` and `DisplayAlerts`
equal to their values before the operation, whether the body returns
normally or raises, and the body outcome itself is passed through
unchanged. -/
theorem performance_mode_restores_settings :
    ∀ (σ β : Type) (body : ExcelAppState σ → Except PyExc β × ExcelAppState σ)
      (a : ExcelAppState σ),
      (ExcelEditorWin32.performance_mode body a).2.screenUpdating = a.screenUpdating ∧
      (ExcelEditorWin32.performance_mode body a).2.displayAlerts = a.displayAlerts ∧
      (ExcelEditorWin32.performance_mode body a).1 =
        (body { a with screenUpdating := false, displayAlerts := false }).1 :=
  fun _ _ _ _ => ⟨rfl, rfl, rfl⟩

/-- C1: the Excel error handler flattens every exception into a dictionary
with a single `error` string, but in the PowerPoint Win32 server the
`find_shape_by_text` tool (and its two siblings) calls `_handle_tool_error`,
a name not bound in that module, so any exception raised by the editor there
escapes the tool call as a `NameError` instead of an error payload — the
claimed "no tool call ever escapes with an uncaught exception" fails. -/
theorem excel_errors_flattened_but_ppt_handler_missing :
    (∀ (t : String) (e : PyExc),
        ∃ m, handle_excel_tool_error t e = [("error", m)]) ∧
    (∀ (α : Type) (e : PyExc),
        @find_shape_by_text_tool α (.error e) =
          .escaped (.nameError "name _handle_tool_error is not defined")) := by
  constructor
  · intro t e
    unfold handle_excel_tool_error
    split
    · exact ⟨_, rfl⟩
    · split
      · exact ⟨_, rfl⟩
      · split
        · exact ⟨_, rfl⟩
        · exact ⟨_, rfl⟩
  · intro α e
    rfl

/-- C4 counterexample: a single guarded call that finds no cached handle,
reconnects to an unresponsive application and then reconnects again makes
two `_connect_or_launch` attempts, refuting "it never retries more than
once within one call" (the call even succeeds after the second attempt). -/
theorem ensure_connection_two_reconnects :
    (ensure_connection "PowerPoint" ⟨none, [some ⟨false⟩, some ⟨true⟩]⟩).2.2 = 2 ∧
    ¬((ensure_connection "PowerPoint" ⟨none, [some ⟨false⟩, some ⟨true⟩]⟩).2.2 ≤ 1) ∧
    (ensure_connection "PowerPoint" ⟨none, [some ⟨false⟩, some ⟨true⟩]⟩).1 =
      .ok ⟨true⟩ := by
  refine ⟨rfl, by decide, rfl⟩

/-- C4 amended: a present responsive handle is used unchanged with no
reconnect; an absent handle triggers one reconnect, raising
`ConnectionError` when it yields nothing; an unresponsive handle (cached or
the one just obtained) triggers one further reconnect, so one call makes at
most two reconnect attempts — not at most one — and raises `ConnectionError`
exactly when it ends with no handle. -/
theorem ensure_connection_amended :
    ∀ (nm : String) (s : ConnState),
      (∀ h : AppHandle, s.app = some h → h.responsive = true →
          ensure_connection nm s = (.ok h, s, 0)) ∧
      (ensure_connection nm s).2.2 ≤ 2 ∧
      (s.app = none → s.launches.headD none = none →
          ensure_connection nm s =
            (.error (.connectionError ("Could not connect to or launch " ++ nm ++ ".")),
             connect_or_launch s, 1)) ∧
      ((∃ e, (ensure_connection nm s).1 = .error e) ↔
          (ensure_connection nm s).2.1.app = none) := by
  intro nm s
  refine ⟨?_, ?_, ?_, ?_⟩
  · intro h hs hr
    simp [ensure_connection, hs, hr]
  · cases hs : s.app with
    | none =>
        cases hc : (connect_or_launch s).app with
        | none => simp [ensure_connection, hs, hc]
        | some a =>
            by_cases hr : a.responsive = true
            · simp [ensure_connection, hs, hc, hr]
            · cases hc2 : (connect_or_launch (connect_or_launch s)).app with
              | none => simp [ensure_connection, hs, hc, hr, hc2]
              | some a2 => simp [ensure_connection, hs, hc, hr, hc2]
    | some a =>
        by_cases hr : a.responsive = true
        · simp [ensure_connection, hs, hr]
        · cases hc2 : (connect_or_launch s).app with
          | none => simp [ensure_connection, hs, hr, hc2]
          | some a2 => simp [ensure_connection, hs, hr, hc2]
  · intro hs hl
    have hc : (connect_or_launch s).app = none := by
      unfold connect_or_launch
      cases hll : s.launches with
      | nil => simp
      | cons o rest => simpa [hll] using hl
    simp [ensure_connection, hs, hc]
  · cases hs : s.app with
    | none =>
        cases hc : (connect_or_launch s).app with
        | none => simp [ensure_connection, hs, hc]
        | some a =>
            by_cases hr : a.responsive = true
            · simp [ensure_connection, hs, hc, hr]
            · cases hc2 : (connect_or_launch (connect_or_launch s)).app with
              | none => simp [ensure_connection, hs, hc, hr, hc2]
              | some a2 => simp [ensure_connection, hs, hc, hr, hc2]
    | some a =>
        by_cases hr : a.responsive = true
        · simp [ensure_connection, hs, hr]
        · cases hc2 : (connect_or_launch s).app with
          | none => simp [ensure_connection, hs, hr, hc2]
          | some a2 => simp [ensure_connection, hs, hr, hc2]

/-- C4 witness: a present responsive handle is used unchanged with zero
reconnect attempts. -/
theorem ensure_connection_amended_witness :
    ensure_connection "Excel" ⟨some ⟨true⟩, []⟩ =
      (.ok ⟨true⟩, ⟨some ⟨true⟩, []⟩, 0) :=
  (ensure_connection_amended "Excel" ⟨some ⟨true⟩, []⟩).1 ⟨true⟩ rfl rfl

/-- C10: `delete_slide` with `0 ≤ slide_index < len(slides)` returns `True`
and removes exactly the slide at that index — the count drops by one,
earlier slides keep their positions and later slides shift down by one —
while an out-of-range index returns `False` and leaves the document
untouched. -/
theorem delete_slide_spec :
    ∀ (pres : PresDoc) (i : Int),
      (0 ≤ i ∧ i < (pres.slides.length : Int) →
        (PPContext.delete_slide pres i).1 = true ∧
        (PPContext.delete_slide pres i).2.slides.length = pres.slides.length - 1 ∧
        (∀ j : Nat, j < i.toNat →
            (PPContext.delete_slide pres i).2.slides.get? j = pres.slides.get? j) ∧
        (∀ j : Nat, i.toNat ≤ j →
            (PPContext.delete_slide pres i).2.slides.get? j = pres.slides.get? (j + 1))) ∧
      (¬(0 ≤ i ∧ i < (pres.slides.length : Int)) →
        PPContext.delete_slide pres i = (false, pres)) := by
  intro pres i
  constructor
  · intro h
    have hlt : i.toNat < pres.slides.length := by omega
    refine ⟨by simp [PPContext.delete_slide, h], ?_, ?_, ?_⟩
    · simp only [PPContext.delete_slide, if_pos h]
      rw [List.eraseIdx_eq_take_drop_succ]
      simp
      omega
    · intro j hj
      simp only [PPContext.delete_slide, if_pos h]
      exact eraseIdx_get?_lt _ _ _ hj
    · intro j hj
      simp only [PPContext.delete_slide, if_pos h]
      exact eraseIdx_get?_ge _ _ _ hj
  · intro h
    simp [PPContext.delete_slide, h]

/-- C10 witness: deleting index 0 of a two-slide document succeeds and
leaves one slide. -/
theorem delete_slide_spec_witness :
    (PPContext.delete_slide ⟨[⟨[⟨1⟩]⟩, ⟨[⟨2⟩]⟩]⟩ 0).1 = true ∧
    (PPContext.delete_slide ⟨[⟨[⟨1⟩]⟩, ⟨[⟨2⟩]⟩]⟩ 0).2.slides.length = 1 := by
  have h := (delete_slide_spec ⟨[⟨[⟨1⟩]⟩, ⟨[⟨2⟩]⟩]⟩ 0).1 (by constructor <;> decide)
  exact ⟨h.1, h.2.1⟩

/-- C7 counterexample: with the default relative workspace directory
`presentations`, the first `get_presentation` call for the relative
identifier `demo.pptx` stores the document under the key
`presentations/demo.pptx`, which is not an absolute path — so the cache is
keyed by the resolved path, not by a resolved *absolute* path as claimed. -/
theorem cache_key_not_absolute :
    ((PPContext.get_presentation ⟨"presentations", [], none, [], 0⟩ []
        "demo.pptx").2).presentations = [("presentations/demo.pptx", ⟨[]⟩)] ∧
    pyIsAbsolute "presentations/demo.pptx" = false := by
  exact ⟨by decide, by decide⟩

/-- C7 amended: the first `get_presentation` call for a path loads (or
creates) the document and stores it in the cache keyed by the resolved path
— the identifier itself when absolute, otherwise the workspace directory
(itself possibly relative) joined with it — making that key current; every
later call with the same path returns the same cached object with no disk
access (the second call result is independent of the disk contents); and no
modelled context operation (`get_presentation`, `save_presentation`,
`register_element`) ever removes a cache entry. -/
theorem presentation_cache_amended :
    ∀ (c : PPContext) (disk disk2 : List (String × PresDoc)) (p : String),
      (assocFind ((c.get_presentation disk p).2).presentations
          (resolveWorkspacePath c.workspace_dir p)
        = some (c.get_presentation disk p).1) ∧
      (((c.get_presentation disk p).2).current_presentation
        = some (resolveWorkspacePath c.workspace_dir p)) ∧
      (((c.get_presentation disk p).2).get_presentation disk2 p
        = ((c.get_presentation disk p).1, (c.get_presentation disk p).2)) ∧
      (∀ (k : String) (v : PresDoc), assocFind c.presentations k = some v →
          assocFind ((c.get_presentation disk p).2).presentations k = some v) ∧
      (∀ (k : String) (v : PresDoc) (q : Option String),
          assocFind c.presentations k = some v →
          assocFind ((c.save_presentation q).1).presentations k = some v) ∧
      (∀ (k : String) (v : PresDoc) (path2 : String) (si : Int) (sid : Nat),
          assocFind c.presentations k = some v →
          assocFind ((c.register_element path2 si sid).2).presentations k
            = some v) := by
  intro c disk disk2 p
  have hkey :
      assocFind ((c.get_presentation disk p).2).presentations
          (resolveWorkspacePath c.workspace_dir p)
        = some (c.get_presentation disk p).1 := by
    cases hl : assocFind c.presentations (resolveWorkspacePath c.workspace_dir p) with
    | none => simp [PPContext.get_presentation, hl, assocFind]
    | some pres => simp [PPContext.get_presentation, hl]
  have hcur :
      ((c.get_presentation disk p).2).current_presentation
        = some (resolveWorkspacePath c.workspace_dir p) := by
    cases hl : assocFind c.presentations (resolveWorkspacePath c.workspace_dir p) with
    | none => simp [PPContext.get_presentation, hl]
    | some pres => simp [PPContext.get_presentation, hl]
  have hws :
      ((c.get_presentation disk p).2).workspace_dir = c.workspace_dir := by
    cases hl : assocFind c.presentations (resolveWorkspacePath c.workspace_dir p) with
    | none => simp [PPContext.get_presentation, hl]
    | some pres => simp [PPContext.get_presentation, hl]
  refine ⟨hkey, hcur, ?_, ?_, ?_, ?_⟩
  · cases hl : assocFind c.presentations (resolveWorkspacePath c.workspace_dir p) with
    | none => simp [PPContext.get_presentation, hl, assocFind]
    | some pres => simp [PPContext.get_presentation, hl]
  · intro k v hk
    cases hl : assocFind c.presentations (resolveWorkspacePath c.workspace_dir p) with
    | none =>
        have hne : ¬(resolveWorkspacePath c.workspace_dir p = k) := by
          intro he
          rw [he] at hl
          rw [hl] at hk
          exact Option.noConfusion hk
        simp [PPContext.get_presentation, hl, assocFind, hne, hk]
    | some pres => simp [PPContext.get_presentation, hl, hk]
  · intro k v q hk
    unfold PPContext.save_presentation
    cases hsp : (match q with
        | some p2 => some (resolveWorkspacePath c.workspace_dir p2)
        | none => c.current_presentation) with
    | none => simpa [hsp] using hk
    | some sp =>
        cases hcc : assocFind c.presentations sp with
        | none => simp [hsp, hcc, hk]
        | some pres => simp [hsp, hcc, hk]
  · intro k v path2 si sid hk
    unfold PPContext.register_element
    cases hr : assocFind c.element_ids (path2, si, sid) with
    | none => simpa [hr] using hk
    | some eid => simpa [hr] using hk

/-- C7 witness: a cache entry present before a `get_presentation` call for a
different path is still present afterwards. -/
theorem presentation_cache_amended_witness :
    assocFind ((PPContext.get_presentation
        ⟨"presentations", [("old.pptx", ⟨[]⟩)], none, [], 0⟩ []
        "a.pptx").2).presentations "old.pptx" = some ⟨[]⟩ :=
  (presentation_cache_amended
      ⟨"presentations", [("old.pptx", ⟨[]⟩)], none, [], 0⟩ [] [] "a.pptx").2.2.2.1
    "old.pptx" ⟨[]⟩ (by rfl)

/-- C2: for both the workbook and the presentation resolver, an integer (or
digit-string) identifier in `[1, Count]` yields the document at that
1-based position and an out-of-range one yields `None`; any other string
yields the first open document matching it by name or full path (modulo
each resolver's matching rule), and `None` when no document matches. -/
theorem document_resolver_spec :
    ∀ (wbs : List Workbook) (press : List PresW),
      (∀ i : Int, 1 ≤ i → i ≤ (wbs.length : Int) →
          ∃ wb, wbs.get? (i - 1).toNat = some wb ∧
            ExcelEditorWin32.get_workbook wbs (.int i) = some wb) ∧
      (∀ i : Int, i < 1 ∨ (wbs.length : Int) < i →
          ExcelEditorWin32.get_workbook wbs (.int i) = none) ∧
      (∀ s : String, pyIsDigit s = true →
          ExcelEditorWin32.get_workbook wbs (.str s)
            = ExcelEditorWin32.get_workbook wbs (.int (pyStrToInt s))) ∧
      (∀ s : String, pyIsDigit s = false →
          ((ExcelEditorWin32.get_workbook wbs (.str s) = none ↔
              ∀ wb ∈ wbs, wb.matchesIdent s = false) ∧
           (∀ wb : Workbook,
              ExcelEditorWin32.get_workbook wbs (.str s) = some wb →
              wb.matchesIdent s = true ∧
              ∃ pre post, wbs = pre ++ wb :: post ∧
                ∀ x ∈ pre, x.matchesIdent s = false))) ∧
      (∀ i : Int, 1 ≤ i → i ≤ (press.length : Int) →
          ∃ pr, press.get? (i - 1).toNat = some pr ∧
            PowerPointEditorWin32.get_presentation press (.int i) = some pr) ∧
      (∀ i : Int, i < 1 ∨ (press.length : Int) < i →
          PowerPointEditorWin32.get_presentation press (.int i) = none) ∧
      (∀ s : String, pyIsDigit s = true →
          PowerPointEditorWin32.get_presentation press (.str s)
            = PowerPointEditorWin32.get_presentation press (.int (pyStrToInt s))) ∧
      (∀ s : String, pyIsDigit s = false →
          ((PowerPointEditorWin32.get_presentation press (.str s) = none ↔
              ∀ pr ∈ press, pr.matchesIdent s = false) ∧
           (∀ pr : PresW,
              PowerPointEditorWin32.get_presentation press (.str s) = some pr →
              pr.matchesIdent s = true ∧
              ∃ pre post, press = pre ++ pr :: post ∧
                ∀ x ∈ pre, x.matchesIdent s = false))) := by
  intro wbs press
  refine ⟨?_, ?_, ?_, ?_, ?_, ?_, ?_, ?_⟩
  · intro i h1 h2
    have hlt : (i - 1).toNat < wbs.length := by omega
    refine ⟨wbs.get ⟨(i - 1).toNat, hlt⟩, List.get?_eq_get hlt, ?_⟩
    simp only [ExcelEditorWin32.get_workbook]
    rw [if_pos ⟨h1, h2⟩]
    exact List.get?_eq_get hlt
  · intro i h
    simp only [ExcelEditorWin32.get_workbook]
    rw [if_neg (by omega)]
  · intro s h
    simp [ExcelEditorWin32.get_workbook, h]
  · intro s h
    constructor
    · simp only [ExcelEditorWin32.get_workbook, h, Bool.false_eq_true, if_false]
      rw [List.find?_eq_none]
      simp
    · intro wb hwb
      simp only [ExcelEditorWin32.get_workbook, h, Bool.false_eq_true, if_false] at hwb
      obtain ⟨hp, pre, post, heq, hpre⟩ := find?_first _ wbs wb hwb
      exact ⟨hp, pre, post, heq, hpre⟩
  · intro i h1 h2
    have hlt : (i - 1).toNat < press.length := by omega
    refine ⟨press.get ⟨(i - 1).toNat, hlt⟩, List.get?_eq_get hlt, ?_⟩
    simp only [PowerPointEditorWin32.get_presentation]
    rw [if_pos ⟨h1, h2⟩]
    exact List.get?_eq_get hlt
  · intro i h
    simp only [PowerPointEditorWin32.get_presentation]
    rw [if_neg (by omega)]
  · intro s h
    simp [PowerPointEditorWin32.get_presentation, h]
  · intro s h
    constructor
    · simp only [PowerPointEditorWin32.get_presentation, h, Bool.false_eq_true,
        if_false]
      rw [List.find?_eq_none]
      simp
    · intro pr hpr
      simp only [PowerPointEditorWin32.get_presentation, h, Bool.false_eq_true,
        if_false] at hpr
      obtain ⟨hp, pre, post, heq, hpre⟩ := find?_first _ press pr hpr
      exact ⟨hp, pre, post, heq, hpre⟩

/-- C2 witness: position 1 of a one-workbook collection resolves to that
workbook. -/
theorem document_resolver_spec_witness :
    ∃ wb, ([⟨"Book1.xlsx", "Book1.xlsx", "", []⟩] : List Workbook).get?
        ((1 : Int) - 1).toNat = some wb ∧
      ExcelEditorWin32.get_workbook [⟨"Book1.xlsx", "Book1.xlsx", "", []⟩]
        (.int 1) = some wb :=
  (document_resolver_spec [⟨"Book1.xlsx", "Book1.xlsx", "", []⟩] []).1 1
    (by decide) (by decide)

/-- C3 counterexample: slides are not addressable by name — passing a name
string as the slide identifier makes `get_slide` raise (the comparison
`1 <= slide_index` is a `TypeError`, printed and re-raised by the method),
so the lookup neither resolves the slide with that name nor yields `None`. -/
theorem slide_name_lookup_raises :
    ¬ ∃ r : Option SlideW,
        PowerPointEditorWin32.get_slide
          [⟨"Deck.pptx", "Deck.pptx", "", [⟨"Slide1"⟩]⟩] (.int 1) (.str "Slide1")
          = .ok r := by
  rintro ⟨r, h⟩
  rw [show PowerPointEditorWin32.get_slide
        [⟨"Deck.pptx", "Deck.pptx", "", [⟨"Slide1"⟩]⟩] (.int 1) (.str "Slide1")
      = Except.error (PyExc.typeError
          "not supported between instances of int and str") from rfl] at h
  exact Except.noConfusion h

/-- C3 amended: worksheets are addressable by 1-based position or by name
(integer in `[1, Count]` resolves to that sheet, out of range gives `None`;
a string resolves to the sheet with that name, `None` when absent); slides
are addressable by 1-based position only (in range resolves, out of range
gives `None` without an exception), and a string slide identifier is not
supported — it raises a `TypeError` instead of resolving by name. -/
theorem subsection_resolver_amended :
    (∀ (wbs : List Workbook) (identifier : PyIdent) (wb : Workbook),
        ExcelEditorWin32.get_workbook wbs identifier = some wb →
        ((∀ i : Int, 1 ≤ i → i ≤ (wb.sheets.length : Int) →
            ∃ sh, wb.sheets.get? (i - 1).toNat = some sh ∧
              ExcelEditorWin32.get_worksheet wbs identifier (.int i) = some sh) ∧
         (∀ i : Int, i < 1 ∨ (wb.sheets.length : Int) < i →
            ExcelEditorWin32.get_worksheet wbs identifier (.int i) = none) ∧
         (∀ s : String,
            (ExcelEditorWin32.get_worksheet wbs identifier (.str s) = none ↔
                ∀ sh ∈ wb.sheets, (sh.name == s) = false) ∧
            (∀ sh : Worksheet,
                ExcelEditorWin32.get_worksheet wbs identifier (.str s) = some sh →
                sh.name = s)))) ∧
    (∀ (press : List PresW) (identifier : PyIdent) (pres : PresW),
        PowerPointEditorWin32.get_presentation press identifier = some pres →
        ((∀ i : Int, 1 ≤ i → i ≤ (pres.slides.length : Int) →
            ∃ sl, pres.slides.get? (i - 1).toNat = some sl ∧
              PowerPointEditorWin32.get_slide press identifier (.int i)
                = .ok (some sl)) ∧
         (∀ i : Int, i < 1 ∨ (pres.slides.length : Int) < i →
            PowerPointEditorWin32.get_slide press identifier (.int i) = .ok none) ∧
         (∀ s : String, ∃ m,
            PowerPointEditorWin32.get_slide press identifier (.str s)
              = .error (.typeError m)))) := by
  constructor
  · intro wbs identifier wb hwb
    refine ⟨?_, ?_, ?_⟩
    · intro i h1 h2
      have hlt : (i - 1).toNat < wb.sheets.length := by omega
      refine ⟨wb.sheets.get ⟨(i - 1).toNat, hlt⟩, List.get?_eq_get hlt, ?_⟩
      simp only [ExcelEditorWin32.get_worksheet, hwb]
      rw [if_pos ⟨h1, h2⟩]
      exact List.get?_eq_get hlt
    · intro i h
      simp only [ExcelEditorWin32.get_worksheet, hwb]
      rw [if_neg (by omega)]
    · intro s
      constructor
      · simp only [ExcelEditorWin32.get_worksheet, hwb]
        rw [List.find?_eq_none]
        simp
      · intro sh hsh
        simp only [ExcelEditorWin32.get_worksheet, hwb] at hsh
        have := List.find?_some hsh
        exact eq_of_beq this
  · intro press identifier pres hpres
    refine ⟨?_, ?_, ?_⟩
    · intro i h1 h2
      have hlt : (i - 1).toNat < pres.slides.length := by omega
      refine ⟨pres.slides.get ⟨(i - 1).toNat, hlt⟩, List.get?_eq_get hlt, ?_⟩
      simp only [PowerPointEditorWin32.get_slide, hpres]
      rw [if_pos ⟨h1, h2⟩]
      rw [List.get?_eq_get hlt]
    · intro i h
      simp only [PowerPointEditorWin32.get_slide, hpres]
      rw [if_neg (by omega)]
    · intro s
      exact ⟨"not supported between instances of int and str", by
        simp only [PowerPointEditorWin32.get_slide, hpres]⟩

/-- C3 witness: an out-of-range sheet position and an out-of-range slide
position both yield `None` without an exception. -/
theorem subsection_resolver_amended_witness :
    ExcelEditorWin32.get_worksheet
        [⟨"Book1.xlsx", "Book1.xlsx", "", [⟨"Sheet1", none⟩]⟩]
        (.int 1) (.int 5) = none ∧
    PowerPointEditorWin32.get_slide
        [⟨"Deck.pptx", "Deck.pptx", "", [⟨"Slide1"⟩]⟩]
        (.int 1) (.int 99) = .ok none :=
  ⟨(subsection_resolver_amended.1
        [⟨"Book1.xlsx", "Book1.xlsx", "", [⟨"Sheet1", none⟩]⟩] (.int 1)
        ⟨"Book1.xlsx", "Book1.xlsx", "", [⟨"Sheet1", none⟩]⟩ rfl).2.1 5
      (Or.inr (by decide)),
   (subsection_resolver_amended.2
        [⟨"Deck.pptx", "Deck.pptx", "", [⟨"Slide1"⟩]⟩] (.int 1)
        ⟨"Deck.pptx", "Deck.pptx", "", [⟨"Slide1"⟩]⟩ rfl).2.1 99
      (Or.inr (by decide))⟩

/-- Characterisation of the string-cell extraction: a record is produced
exactly for the grid positions holding a nonblank string, at absolute
coordinates. -/
theorem mem_extract_string_cells (nm : String) (u : UsedRange) (sc : StringCell) :
    sc ∈ ExcelEditorWin32.extract_string_cells ⟨nm, some u⟩ ↔
      ∃ ri ci s, (u.values.get? ri).bind (fun rw => rw.get? ci) = some (.str s) ∧
        s.trim ≠ "" ∧ sc = ⟨s.trim, u.row + ri, u.col + ci⟩ := by
  simp only [ExcelEditorWin32.extract_string_cells, List.mem_flatMap,
    List.mem_filterMap]
  constructor
  · rintro ⟨⟨ri, rowv⟩, hmem, ⟨ci, v⟩, hmem2, hg⟩
    have hrow : u.values.get? ri = some rowv := by
      have := List.mk_mem_enum_iff_getElem?.mp hmem
      simpa using this
    have hcell : rowv.get? ci = some v := by
      have := List.mk_mem_enum_iff_getElem?.mp hmem2
      simpa using this
    cases v with
    | empty => simp at hg
    | num n => simp at hg
    | str s =>
        by_cases ht : s.trim = ""
        · simp [ht] at hg
        · simp only [ht] at hg
          refine ⟨ri, ci, s, by rw [hrow]; simpa using hcell, ht, ?_⟩
          have hg2 : (if s.trim ≠ "" then
              some ({ value := s.trim, row := u.row + ri, col := u.col + ci } :
                StringCell) else none) = some sc := hg
          rw [if_pos ht] at hg2
          exact (Option.some.inj hg2).symm
  · rintro ⟨ri, ci, s, hbind, ht, rfl⟩
    cases hrow : u.values.get? ri with
    | none => rw [hrow] at hbind; simp at hbind
    | some rowv =>
        rw [hrow] at hbind
        simp at hbind
        refine ⟨(ri, rowv), ?_, (ci, CellValue.str s), ?_, ?_⟩
        · exact List.mk_mem_enum_iff_getElem?.mpr (by simpa using hrow)
        · exact List.mk_mem_enum_iff_getElem?.mpr (by simpa using hbind)
        · simp [ht]

/-- The header scan collects one pair per window row whose cell holds a
nonzero number, so its length is the count of such rows. -/
theorem numbers_below_length (ws : Worksheet) (sc : StringCell) :
    (ExcelEditorWin32.numbers_below ws sc).length =
      ((pyRange (sc.row + 1) (min (sc.row + 20) ws.usedEndRow)).filter
        (fun r => (ws.cellAt r sc.col).isNonzeroNumber)).length := by
  unfold ExcelEditorWin32.numbers_below
  generalize pyRange (sc.row + 1) (min (sc.row + 20) ws.usedEndRow) = l
  induction l with
  | nil => rfl
  | cons r t ih =>
      rw [List.filterMap_cons, List.filter_cons]
      cases hv : ws.cellAt r sc.col with
      | empty => simpa [CellValue.isNonzeroNumber] using ih
      | str s => simpa [CellValue.isNonzeroNumber] using ih
      | num n =>
          by_cases hn : n = 0
          · simpa [CellValue.isNonzeroNumber, hn] using ih
          · simpa [CellValue.isNonzeroNumber, hn] using ih

/-- C6: the analyzer reports a horizontal pair exactly for each nonblank
text cell of the used range whose immediate right neighbour holds a nonzero
number, and reports a text cell as a table header exactly when at least 2
nonzero numbers lie below it in its column within the scan window
`range(row + 1, min(row + 20, last used row + 1))` — i.e. at most 19 rows
beneath it, clipped to the used range. -/
theorem label_value_pattern_characterization :
    ∀ (nm : String) (u : UsedRange),
      (∀ p : HorizontalPair,
          p ∈ (ExcelEditorWin32.analyze_label_value_patterns
                ⟨nm, some u⟩).horizontal_pairs
          ↔ ∃ ri ci s n,
              (u.values.get? ri).bind (fun rw => rw.get? ci) = some (.str s) ∧
              s.trim ≠ "" ∧ n ≠ 0 ∧
              Worksheet.cellAt ⟨nm, some u⟩ (u.row + ri) (u.col + ci + 1) = .num n ∧
              p = ⟨s.trim, u.row + ri, u.col + ci, n⟩) ∧
      (∀ th : TableHeader,
          th ∈ (ExcelEditorWin32.analyze_label_value_patterns
                ⟨nm, some u⟩).table_headers
          ↔ ∃ ri ci s,
              (u.values.get? ri).bind (fun rw => rw.get? ci) = some (.str s) ∧
              s.trim ≠ "" ∧
              2 ≤ ((pyRange (u.row + ri + 1)
                      (min (u.row + ri + 20) (Worksheet.usedEndRow ⟨nm, some u⟩))).filter
                     (fun r => (Worksheet.cellAt ⟨nm, some u⟩ r
                        (u.col + ci)).isNonzeroNumber)).length ∧
              th = ⟨s.trim, u.row + ri, u.col + ci,
                    ((pyRange (u.row + ri + 1)
                        (min (u.row + ri + 20) (Worksheet.usedEndRow ⟨nm, some u⟩))).filter
                       (fun r => (Worksheet.cellAt ⟨nm, some u⟩ r
                          (u.col + ci)).isNonzeroNumber)).length⟩) := by
  intro nm u
  constructor
  · intro p
    simp only [ExcelEditorWin32.analyze_label_value_patterns, List.mem_filterMap]
    constructor
    · rintro ⟨sc, hsc, hg⟩
      obtain ⟨ri, ci, s, hbind, ht, rfl⟩ := (mem_extract_string_cells nm u sc).mp hsc
      have hg2 :
          (match Worksheet.cellAt ⟨nm, some u⟩ (u.row + ri) (u.col + ci + 1) with
            | CellValue.num n =>
                if n ≠ 0 then
                  some ({ label := s.trim, row := u.row + ri, col := u.col + ci,
                          value := n } : HorizontalPair)
                else none
            | _ => none) = some p := hg
      cases hv : Worksheet.cellAt ⟨nm, some u⟩ (u.row + ri) (u.col + ci + 1) with
      | empty => rw [hv] at hg2; exact Option.noConfusion hg2
      | str s2 => rw [hv] at hg2; exact Option.noConfusion hg2
      | num n =>
          rw [hv] at hg2
          have hg3 : (if n ≠ 0 then
              some ({ label := s.trim, row := u.row + ri, col := u.col + ci,
                      value := n } : HorizontalPair)
            else none) = some p := hg2
          by_cases hn : n = 0
          · rw [if_neg (not_not_intro hn)] at hg3
            exact Option.noConfusion hg3
          · rw [if_pos hn] at hg3
            exact ⟨ri, ci, s, n, hbind, ht, hn, hv, (Option.some.inj hg3).symm⟩
    · rintro ⟨ri, ci, s, n, hbind, ht, hn, hv, rfl⟩
      refine ⟨⟨s.trim, u.row + ri, u.col + ci⟩,
        (mem_extract_string_cells nm u _).mpr ⟨ri, ci, s, hbind, ht, rfl⟩, ?_⟩
      show (match Worksheet.cellAt ⟨nm, some u⟩ (u.row + ri) (u.col + ci + 1) with
            | CellValue.num n2 =>
                if n2 ≠ 0 then
                  some ({ label := s.trim, row := u.row + ri, col := u.col + ci,
                          value := n2 } : HorizontalPair)
                else none
            | _ => none) = some ⟨s.trim, u.row + ri, u.col + ci, n⟩
      rw [hv]
      show (if n ≠ 0 then
          some ({ label := s.trim, row := u.row + ri, col := u.col + ci,
                  value := n } : HorizontalPair)
        else none) = some ⟨s.trim, u.row + ri, u.col + ci, n⟩
      rw [if_pos hn]
  · intro th
    simp only [ExcelEditorWin32.analyze_label_value_patterns, List.mem_filterMap]
    constructor
    · rintro ⟨sc, hsc, hg⟩
      obtain ⟨ri, ci, s, hbind, ht, rfl⟩ := (mem_extract_string_cells nm u sc).mp hsc
      have hlen :
          (ExcelEditorWin32.numbers_below ⟨nm, some u⟩
              ⟨s.trim, u.row + ri, u.col + ci⟩).length =
            ((pyRange (u.row + ri + 1)
                (min (u.row + ri + 20) (Worksheet.usedEndRow ⟨nm, some u⟩))).filter
               (fun r => (Worksheet.cellAt ⟨nm, some u⟩ r
                  (u.col + ci)).isNonzeroNumber)).length :=
        numbers_below_length ⟨nm, some u⟩ ⟨s.trim, u.row + ri, u.col + ci⟩
      have hg2 :
          (if 2 ≤ (ExcelEditorWin32.numbers_below ⟨nm, some u⟩
                ⟨s.trim, u.row + ri, u.col + ci⟩).length then
              some ({ header := s.trim, row := u.row + ri, col := u.col + ci,
                      data_count := (ExcelEditorWin32.numbers_below ⟨nm, some u⟩
                        ⟨s.trim, u.row + ri, u.col + ci⟩).length } : TableHeader)
            else none) = some th := hg
      rw [hlen] at hg2
      by_cases h2 : 2 ≤ ((pyRange (u.row + ri + 1)
          (min (u.row + ri + 20) (Worksheet.usedEndRow ⟨nm, some u⟩))).filter
            (fun r => (Worksheet.cellAt ⟨nm, some u⟩ r
              (u.col + ci)).isNonzeroNumber)).length
      · rw [if_pos h2] at hg2
        exact ⟨ri, ci, s, hbind, ht, h2, (Option.some.inj hg2).symm⟩
      · rw [if_neg h2] at hg2
        exact Option.noConfusion hg2
    · rintro ⟨ri, ci, s, hbind, ht, h2, rfl⟩
      refine ⟨⟨s.trim, u.row + ri, u.col + ci⟩,
        (mem_extract_string_cells nm u _).mpr ⟨ri, ci, s, hbind, ht, rfl⟩, ?_⟩
      have hlen :
          (ExcelEditorWin32.numbers_below ⟨nm, some u⟩
              ⟨s.trim, u.row + ri, u.col + ci⟩).length =
            ((pyRange (u.row + ri + 1)
                (min (u.row + ri + 20) (Worksheet.usedEndRow ⟨nm, some u⟩))).filter
               (fun r => (Worksheet.cellAt ⟨nm, some u⟩ r
                  (u.col + ci)).isNonzeroNumber)).length :=
        numbers_below_length ⟨nm, some u⟩ ⟨s.trim, u.row + ri, u.col + ci⟩
      show (if 2 ≤ (ExcelEditorWin32.numbers_below ⟨nm, some u⟩
              ⟨s.trim, u.row + ri, u.col + ci⟩).length then
            some ({ header := s.trim, row := u.row + ri, col := u.col + ci,
                    data_count := (ExcelEditorWin32.numbers_below ⟨nm, some u⟩
                      ⟨s.trim, u.row + ri, u.col + ci⟩).length } : TableHeader)
          else none) = some ⟨s.trim, u.row + ri, u.col + ci,
            ((pyRange (u.row + ri + 1)
                (min (u.row + ri + 20) (Worksheet.usedEndRow ⟨nm, some u⟩))).filter
               (fun r => (Worksheet.cellAt ⟨nm, some u⟩ r
                  (u.col + ci)).isNonzeroNumber)).length⟩
      rw [hlen, if_pos h2]

/-- Registering an element preserves the registry invariant, so the
invariant holds for every context reachable from the freshly initialised
one (whose registry is empty). -/
theorem register_element_registryInv (c : PPContext) (path : String)
    (si : Int) (sid : Nat) :
    c.RegistryInv → ((c.register_element path si sid).2).RegistryInv := by
  rintro ⟨hb, hnd⟩
  unfold PPContext.register_element
  cases hr : assocFind c.element_ids (path, si, sid) with
  | some eid => exact ⟨hb, hnd⟩
  | none =>
      constructor
      · intro kv hkv
        rcases List.mem_cons.mp hkv with rfl | hkv2
        · simp
        · exact Nat.lt_succ_of_lt (hb kv hkv2)
      · show ((((path, si, sid), c.next_element_id) ::
            c.element_ids).map Prod.snd).Nodup
        rw [List.map_cons, List.nodup_cons]
        refine ⟨?_, hnd⟩
        intro hmem
        obtain ⟨kv, hkv, hsnd⟩ := List.mem_map.mp hmem
        have := hb kv hkv
        omega

/-- C9: element-id assignment is stable — a key (presentation path, slide
index, shape id) already registered is returned unchanged by any further
registration; registering other keys never disturbs a stored id; a key is
stored under the id the registration returned; and, for a well-formed
registry, looking up the shape by the element id just returned from
registering it (with that presentation current and per-slide shape ids
distinct, as python-pptx guarantees) returns that same shape. -/
theorem element_id_stability :
    (∀ (c : PPContext) (path : String) (si : Int) (sid : Nat) (e : Nat),
        assocFind c.element_ids (path, si, sid) = some e →
        c.register_element path si sid = (e, c)) ∧
    (∀ (c : PPContext) (k : String × Int × Nat) (path2 : String) (si2 : Int)
        (sid2 : Nat) (e : Nat),
        assocFind c.element_ids k = some e →
        assocFind ((c.register_element path2 si2 sid2).2).element_ids k = some e) ∧
    (∀ (c : PPContext) (path : String) (si : Int) (sid : Nat),
        assocFind ((c.register_element path si sid).2).element_ids (path, si, sid)
          = some (c.register_element path si sid).1) ∧
    (∀ (c : PPContext) (pres : PresDoc) (path : String) (si : Int)
        (slide : PSlide) (sh : PShape),
        c.RegistryInv →
        c.current_presentation = some path →
        0 ≤ si →
        pyListGet pres.slides si = some slide →
        sh ∈ slide.shapes →
        (slide.shapes.map PShape.shape_id).Nodup →
        ((c.register_element path si sh.shape_id).2).get_shape_by_id pres si
            (c.register_element path si sh.shape_id).1 = some sh) := by
  refine ⟨?_, ?_, ?_, ?_⟩
  · intro c path si sid e he
    unfold PPContext.register_element
    rw [he]
  · intro c k path2 si2 sid2 e he
    unfold PPContext.register_element
    cases hr : assocFind c.element_ids (path2, si2, sid2) with
    | some eid => exact he
    | none =>
        have hne : ((path2, si2, sid2) : String × Int × Nat) ≠ k := by
          intro hkk
          rw [hkk, he] at hr
          exact Option.noConfusion hr
        show assocFind (((path2, si2, sid2), c.next_element_id) :: c.element_ids) k
          = some e
        simp only [assocFind]
        rw [if_neg hne]
        exact he
  · intro c path si sid
    unfold PPContext.register_element
    cases hr : assocFind c.element_ids (path, si, sid) with
    | some eid => exact hr
    | none =>
        show assocFind (((path, si, sid), c.next_element_id) :: c.element_ids)
            (path, si, sid) = some c.next_element_id
        simp [assocFind]
  · intro c pres path si slide sh hinv hcur hsi hslide hmem hnodup
    have hlt : si.toNat < pres.slides.length := by
      unfold pyListGet at hslide
      rw [if_pos hsi] at hslide
      obtain ⟨h, _⟩ := List.get?_eq_some.mp hslide
      exact h
    have hlen : ¬((pres.slides.length : Int) ≤ si) := by omega
    cases hr : assocFind c.element_ids (path, si, sh.shape_id) with
    | some e =>
        have hreg : c.register_element path si sh.shape_id = (e, c) := by
          unfold PPContext.register_element
          rw [hr]
        rw [hreg]
        unfold PPContext.get_shape_by_id
        rw [if_neg hlen]
        simp only [hslide, hcur]
        apply find?_unique _ _ _ hmem
        · simp [hr]
        · intro x hx hpx
          have hxe : assocFind c.element_ids (path, si, x.shape_id) = some e := by
            simpa using hpx
          have hk := assocFind_inj c.element_ids hinv.2 _ _ e hxe hr
          have hxs : x.shape_id = sh.shape_id := by
            have := congrArg (fun t => t.2.2) hk
            simpa using this
          exact (List.inj_on_of_nodup_map hnodup) hx hmem hxs
    | none =>
        have hreg : c.register_element path si sh.shape_id =
            (c.next_element_id,
             { c with
                 element_ids :=
                   ((path, si, sh.shape_id), c.next_element_id) :: c.element_ids
                 next_element_id := c.next_element_id + 1 }) := by
          unfold PPContext.register_element
          rw [hr]
        rw [hreg]
        unfold PPContext.get_shape_by_id
        rw [if_neg hlen]
        simp only [hslide, hcur]
        apply find?_unique _ _ _ hmem
        · simp [assocFind]
        · intro x hx hpx
          have hxe : assocFind
              (((path, si, sh.shape_id), c.next_element_id) :: c.element_ids)
              (path, si, x.shape_id) = some c.next_element_id := by
            simpa using hpx
          by_cases hxs : x.shape_id = sh.shape_id
          · exact (List.inj_on_of_nodup_map hnodup) hx hmem hxs
          · have hne : ((path, si, sh.shape_id) : String × Int × Nat)
                ≠ (path, si, x.shape_id) := by
              intro hkk
              apply hxs
              have := congrArg (fun t => t.2.2) hkk
              simpa using this.symm
            rw [show assocFind
                (((path, si, sh.shape_id), c.next_element_id) :: c.element_ids)
                (path, si, x.shape_id) = assocFind c.element_ids (path, si, x.shape_id) by
                  simp [assocFind, hne]] at hxe
            have hbd := hinv.1 _ (assocFind_mem _ _ _ hxe)
            simp at hbd

/-- C9 witness: registering shape id 7 on slide 0 of the current
presentation and looking the returned element id back up yields that
shape. -/
theorem element_id_stability_witness :
    ((PPContext.register_element ⟨"presentations", [], some "p", [], 0⟩
        "p" 0 7).2).get_shape_by_id ⟨[⟨[⟨7⟩]⟩]⟩ 0
      (PPContext.register_element ⟨"presentations", [], some "p", [], 0⟩
        "p" 0 7).1 = some ⟨7⟩ :=
  element_id_stability.2.2.2 ⟨"presentations", [], some "p", [], 0⟩
    ⟨[⟨[⟨7⟩]⟩]⟩ "p" 0 ⟨[⟨7⟩]⟩ ⟨7⟩
    ⟨fun kv hkv => absurd hkv (by simp), by simp⟩
    rfl (by decide) (by decide) (by decide) (by decide)
